import Mathlib

/-!
# Verification of the BRITIMP consolidator scripts

Shallow embedding of the core logic of `consolidado_v3.py`, `consolidado_v4.py`
and `britimp_consolidado_v4.py`: numeric/date normalization, the authenticity
gate, the document-type dispatcher, the statement-row extractors, the
consolidated-output writer and the text previewer.  Strings are modelled as
`List Char`; Python floats as exact decimals (`Dec`); Python exceptions
(where they matter) as an explicit result type.  All text inputs are taken after the source's
`remove_accents(...).upper()` / `unir_letras_separadas(...).upper()`
normalizations, which the scripts apply before every comparison that the
theorems below talk about.
-/

/-- Substring test: does `needle` occur starting at the head of `hay`?
Models Python `hay.startswith(needle)`. -/
def startsList : List Char → List Char → Bool
  | [], _ => true
  | _ :: _, [] => false
  | a :: as, b :: bs => a == b && startsList as bs

/-- Substring containment, models Python `needle in hay` on strings. -/
def hasSub (needle : List Char) : List Char → Bool
  | [] => startsList needle []
  | c :: rest => startsList needle (c :: rest) || hasSub needle rest

/-- ASCII upper-casing of a text; models `str.upper()` on the (already mostly
upper-case) texts the scripts compare.  Non-ASCII characters are left alone. -/
def pyUpper (cs : List Char) : List Char := cs.map Char.toUpper

/-- The non-breaking-space character kept by the numeric sanitizer. -/
def nbsp : Char := Char.ofNat 160

/-- Characters kept by the sanitizer regex `[^\d,.\-()  ]` of
`parse_numeric` (everything else is deleted). -/
def isNumKeep (c : Char) : Bool :=
  c.isDigit || c == ',' || c == '.' || c == '-' || c == '(' || c == ')' ||
    c == nbsp || c == ' '

/-- `s.replace(" ", " ")` on a single character. -/
def nbspToSpace (c : Char) : Char := if c == nbsp then ' ' else c

/-- Python `str.strip()` restricted to the space character (after
sanitization the only whitespace left in a numeric string is the space). -/
def stripSpaces (cs : List Char) : List Char :=
  ((cs.dropWhile (· == ' ')).reverse.dropWhile (· == ' ')).reverse

/-- Python `str.split(sep)` for a one-character separator. -/
def splitOnChar (sep : Char) : List Char → List (List Char)
  | [] => [[]]
  | c :: rest =>
    let r := splitOnChar sep rest
    if c == sep then [] :: r
    else (c :: r.headD []) :: r.tail

/-- Numeric value of a digit string (most significant digit first). -/
def digitsVal (cs : List Char) : ℕ :=
  cs.foldl (fun a c => 10 * a + (c.toNat - 48)) 0

/-- Exact decimal number `m / 10 ^ e`.  This models the Python floats that the
scripts manipulate: the parsers only ever parse decimal strings, negate,
compare, and round them, so an exact decimal representation is faithful.
A `Dec` is kept canonical (`e = 0` or `m` not divisible by 10), so that
structural equality coincides with equality of the represented values. -/
structure Dec where
  m : ℤ
  e : ℕ
deriving DecidableEq, Repr

/-- Smart constructor keeping `Dec` canonical: strip factors of ten shared by
the mantissa and the exponent. -/
def Dec.make : ℤ → ℕ → Dec
  | m, 0 => ⟨m, 0⟩
  | m, e + 1 => if m % 10 = 0 then Dec.make (m / 10) e else ⟨m, e + 1⟩

/-- Value comparison `a ≤ b` by cross multiplication. -/
def Dec.le (a b : Dec) : Bool := decide (a.m * 10 ^ b.e ≤ b.m * 10 ^ a.e)

/-- Negation (canonical form is preserved). -/
def Dec.neg (a : Dec) : Dec := ⟨-a.m, a.e⟩

/-- The decimal zero. -/
def Dec.zero : Dec := ⟨0, 0⟩

/-- Python `float.is_integer()`: on a canonical decimal, true iff `e = 0`. -/
def Dec.isInt (a : Dec) : Bool := a.e == 0

/-- Model of Python `round()` (banker's rounding, ties to even) composed with
`int()`, as used by `as_int` in `consolidado_v4.py`. -/
def Dec.roundHalfEven (a : Dec) : ℤ :=
  if a.e = 0 then a.m
  else
    let d : ℤ := 10 ^ a.e
    let q := Int.fdiv a.m d
    let r := a.m - q * d
    if 2 * r < d then q
    else if 2 * r > d then q + 1
    else if q % 2 = 0 then q else q + 1

/-- Model of Python `float(s)` on a sanitized numeric string without sign:
digits with at most one decimal point (`"12"`, `"12.5"`, `"12."`, `".5"`).
Any other shape (several points, a stray comma or parenthesis) raises
`ValueError` in Python, modelled as `none`. -/
def pyFloatUnsigned (cs : List Char) : Option Dec :=
  match splitOnChar '.' cs with
  | [ip] =>
    if !ip.isEmpty && ip.all (·.isDigit) then some ⟨(digitsVal ip : ℤ), 0⟩
    else none
  | [ip, fp] =>
    if ip.all (·.isDigit) && fp.all (·.isDigit) && (!ip.isEmpty || !fp.isEmpty)
    then some (Dec.make (digitsVal ip * 10 ^ fp.length + digitsVal fp) fp.length)
    else none
  | _ => none

/-- Model of Python `float(s)`: an optional leading minus sign, then an
unsigned decimal numeral. -/
def pyFloat (cs : List Char) : Option Dec :=
  match cs with
  | [] => pyFloatUnsigned []
  | c :: rest =>
    if c == '-' then (pyFloatUnsigned rest).map Dec.neg
    else pyFloatUnsigned (c :: rest)

/-- Given that both `'.'` and `','` occur in `cs.reverse`, is the one seen
first (i.e. last in `cs`) the dot?  Models `s.rfind(".") > s.rfind(",")`. -/
def lastSepIsDotRev : List Char → Bool
  | [] => false
  | c :: rest =>
    if c == '.' then true else if c == ',' then false else lastSepIsDotRev rest

/-- The comma/point disambiguation step of `parse_numeric`
(`consolidado_v3.py` lines 141-151; the same logic appears in
`consolidado_v4.py` and, in an equivalent formulation, in
`britimp_consolidado_v4.py`):
* both separators present: the later one is the decimal separator;
* only a comma: decimal separator iff at most two characters follow the
  last comma, otherwise all commas are removed (thousands separators). -/
def commaDotNormalize (cs : List Char) : List Char :=
  if cs.any (· == ',') && cs.any (· == '.') then
    if lastSepIsDotRev cs.reverse then cs.filter (· != ',')
    else (cs.filter (· != '.')).map (fun c => if c == ',' then '.' else c)
  else if cs.any (· == ',') then
    let parts := splitOnChar ',' cs
    if 2 ≤ parts.length ∧ (parts.getLastD []).length ≤ 2
    then cs.map (fun c => if c == ',' then '.' else c)
    else cs.filter (· != ',')
  else cs

/-- `parse_numeric` on a string value (`consolidado_v3.py` lines 132-157):
sanitize, handle the `(...)` accounting negative, drop spaces, disambiguate
the separators, and read the result as a float.  Returns `none` exactly when
the Python function returns `None` (unparseable). -/
def parse_numeric_str (s : List Char) : Option Dec :=
  let s1 := stripSpaces ((s.filter isNumKeep).map nbspToSpace)
  if s1.isEmpty then none
  else if s1.head? = some '(' ∧ s1.getLast? = some ')' then
    (pyFloat (commaDotNormalize ((stripSpaces ((s1.drop 1).dropLast)).filter (· != ' ')))).map Dec.neg
  else pyFloat (commaDotNormalize (s1.filter (· != ' ')))

/-! ## Date normalization (`to_ddmmyyyy` and helpers) -/

/-- Two-digit zero padded numeral, as produced by `strftime("%d")`/`%m`. -/
def pad2 (n : ℕ) : List Char :=
  if n < 10 then '0' :: (toString n).data else (toString n).data

/-- Decimal numeral of a year, as produced by `strftime("%Y")`. -/
def natStr (n : ℕ) : List Char := (toString n).data

/-- `dd/mm/yyyy` rendering used by every `strftime("%d/%m/%Y")` call. -/
def fmtDDMMYYYY (y m d : ℕ) : List Char :=
  pad2 d ++ '/' :: pad2 m ++ '/' :: natStr y

/-- Leap-year test of the proleptic Gregorian calendar (`datetime`). -/
def isLeap (y : ℕ) : Bool := y % 4 == 0 && (y % 100 != 0 || y % 400 == 0)

/-- Days in a month, as validated by `datetime.strptime`. -/
def daysInMonth (y m : ℕ) : ℕ :=
  if m == 2 then (if isLeap y then 29 else 28)
  else if m == 4 || m == 6 || m == 9 || m == 11 then 30
  else 31

/-- The `datetime` range/validity check performed by `strptime` and the
`datetime` constructor. -/
def validDate (y m d : ℕ) : Bool :=
  1 ≤ y && y ≤ 9999 && 1 ≤ m && m ≤ 12 && 1 ≤ d && d ≤ daysInMonth y m

/-- Split into exactly three fields at a separator (helper for the
`strptime` format models). -/
def split3 (sep : Char) (cs : List Char) : Option (List Char × List Char × List Char) :=
  match splitOnChar sep cs with
  | [a, b, c] => some (a, b, c)
  | _ => none

/-- A digit group of between `lo` and `hi` digits, as matched by the
`strptime` directives `%d`/`%m`/`%y`/`%Y`. -/
def digitGroup (lo hi : ℕ) (cs : List Char) : Option ℕ :=
  if cs.all (·.isDigit) && decide (lo ≤ cs.length) && decide (cs.length ≤ hi)
  then some (digitsVal cs) else none

/-- Model of `datetime.strptime(s, "%Y-%m-%d").strftime("%d/%m/%Y")`. -/
def tryYMDdash (cs : List Char) : Option (List Char) :=
  (split3 '-' cs).bind fun (a, b, c) =>
  (digitGroup 1 4 a).bind fun y =>
  (digitGroup 1 2 b).bind fun mo =>
  (digitGroup 1 2 c).bind fun d =>
  if validDate y mo d then some (fmtDDMMYYYY y mo d) else none

/-- Model of `datetime.strptime(s, "%d-%m-%Y").strftime("%d/%m/%Y")`. -/
def tryDMYdash (cs : List Char) : Option (List Char) :=
  (split3 '-' cs).bind fun (a, b, c) =>
  (digitGroup 1 2 a).bind fun d =>
  (digitGroup 1 2 b).bind fun mo =>
  (digitGroup 1 4 c).bind fun y =>
  if validDate y mo d then some (fmtDDMMYYYY y mo d) else none

/-- Model of `datetime.strptime(s, "%d/%m/%y").strftime("%d/%m/%Y")`; a
two-digit year maps to 2000-2068 / 1969-1999 as in CPython. -/
def tryDMy2slash (cs : List Char) : Option (List Char) :=
  (split3 '/' cs).bind fun (a, b, c) =>
  (digitGroup 1 2 a).bind fun d =>
  (digitGroup 1 2 b).bind fun mo =>
  (digitGroup 1 2 c).bind fun y2 =>
  let y := if y2 ≤ 68 then 2000 + y2 else 1900 + y2
  if validDate y mo d then some (fmtDDMMYYYY y mo d) else none

/-- Model of `datetime.strptime(s, "%d/%m/%Y").strftime("%d/%m/%Y")`
(only tried by `consolidado_v4.py`). -/
def tryDMYslash (cs : List Char) : Option (List Char) :=
  (split3 '/' cs).bind fun (a, b, c) =>
  (digitGroup 1 2 a).bind fun d =>
  (digitGroup 1 2 b).bind fun mo =>
  (digitGroup 1 4 c).bind fun y =>
  if validDate y mo d then some (fmtDDMMYYYY y mo d) else none

/-- Model of `datetime.strptime(s, "%m/%d/%Y").strftime("%d/%m/%Y")`
(only tried by `consolidado_v4.py`). -/
def tryMDYslash (cs : List Char) : Option (List Char) :=
  (split3 '/' cs).bind fun (a, b, c) =>
  (digitGroup 1 2 a).bind fun mo =>
  (digitGroup 1 2 b).bind fun d =>
  (digitGroup 1 4 c).bind fun y =>
  if validDate y mo d then some (fmtDDMMYYYY y mo d) else none

/-- First format that parses wins (the `for fmt in (...)` loop). -/
def tryFmts : List (List Char → Option (List Char)) → List Char → Option (List Char)
  | [], _ => none
  | f :: fs, s => match f s with | some r => some r | none => tryFmts fs s

/-- The regex `^\s*(\d{2}/\d{2}/\d{4})\s*$` (`DATE_RE` of
`consolidado_v3.py` and `consolidado_v4.py`) applied to an already stripped
string: exactly `dd/mm/yyyy` with no range validation. -/
def dateRE22 (cs : List Char) : Bool :=
  match cs with
  | [a, b, s1, c, d, s2, e, f, g, h] =>
    a.isDigit && b.isDigit && s1 == '/' && c.isDigit && d.isDigit &&
      s2 == '/' && e.isDigit && f.isDigit && g.isDigit && h.isDigit
  | _ => false

/-- The regex `^\s*(\d{1,2}/\d{1,2}/\d{4})\s*$` (`DATE_RE` of
`britimp_consolidado_v4.py`) applied to an already stripped string. -/
def dateRE12 (cs : List Char) : Bool :=
  match split3 '/' cs with
  | some (a, b, c) =>
    (digitGroup 1 2 a).isSome && (digitGroup 1 2 b).isSome &&
      (digitGroup 4 4 c).isSome
  | none => false

/-- Civil date (proleptic Gregorian) of a day count relative to 1970-01-01,
used to model `datetime(1899, 12, 30) + timedelta(days=v)`. -/
def civilFromDays (z0 : ℤ) : ℤ × ℤ × ℤ :=
  let z := z0 + 719468
  let era := Int.fdiv z 146097
  let doe := z - era * 146097
  let yoe := Int.fdiv (doe - Int.fdiv doe 1460 + Int.fdiv doe 36524 - Int.fdiv doe 146096) 365
  let y := yoe + era * 400
  let doy := doe - (365 * yoe + Int.fdiv yoe 4 - Int.fdiv yoe 100)
  let mp := Int.fdiv (5 * doy + 2) 153
  let d := doy - Int.fdiv (153 * mp + 2) 5 + 1
  let mo := mp + (if mp < 10 then 3 else -9)
  (y + (if mo ≤ 2 then 1 else 0), mo, d)

/-- `excel_serial_to_ddmmyyyy` (`consolidado_v3.py` lines 104-111): the date
of `datetime(1899, 12, 30) + timedelta(days=v)` rendered as `dd/mm/yyyy`.
1899-12-30 is day -25569 relative to 1970-01-01, and `.date()` floors the
fractional day.  A result outside `datetime`'s year range 1..9999 raises
`OverflowError`, which the caller turns into `None`. -/
def excelSerial (v : Dec) : Option (List Char) :=
  let days : ℤ := Int.fdiv v.m (10 ^ v.e) - 25569
  let (y, mo, d) := civilFromDays days
  if 1 ≤ y ∧ y ≤ 9999 then some (fmtDDMMYYYY y.toNat mo.toNat d.toNat)
  else none

/-! ## Spreadsheet cells

`pd.read_excel(..., header=None)` rows are modelled as lists of cells: an
empty cell is the float `nan`; other cells hold a string, a number, or a
date (`pandas.Timestamp`, a `datetime` subclass).  Python `str()` of a cell
is modelled by `cellStr`; note `str(nan) = "nan")`. -/

inductive Cell
  | empty
  | str (s : List Char)
  | num (v : Dec)
  | date (y mo d : ℕ)
deriving DecidableEq, Repr

/-- `pd.isna` on a cell. -/
def cellIsNa : Cell → Bool
  | .empty => true
  | _ => false

/-- Python `str()` of a float: exact for integral values (`"7.0"`);
the shortest-roundtrip repr of non-integral floats is not modelled further
(no claim depends on it), a decimal rendering is used instead. -/
def pyStrNum (v : Dec) : List Char :=
  if v.e == 0 then (toString v.m).data ++ ('.' :: '0' :: [])
  else (toString v.m).data ++ 'e' :: '-' :: natStr v.e

/-- Python `str()` of a `pandas.Timestamp` (midnight): `"YYYY-MM-DD 00:00:00"`. -/
def pyStrDate (y mo d : ℕ) : List Char :=
  natStr y ++ '-' :: pad2 mo ++ '-' :: pad2 d ++ (" 00:00:00".data)

/-- Python `str()` of a cell. -/
def cellStr : Cell → List Char
  | .empty => "nan".data
  | .str s => s
  | .num v => pyStrNum v
  | .date y mo d => pyStrDate y mo d

/-- `clean_digits` (`consolidado_v3.py` line 159): empty string for `nan`,
otherwise the digits of `str(val)`. -/
def clean_digits (c : Cell) : List Char :=
  if cellIsNa c then [] else (cellStr c).filter (·.isDigit)

/-- `parse_numeric` (`consolidado_v3.py` lines 132-157, identical in
`consolidado_v4.py` and `britimp_consolidado_v4.py`): `None` for `nan`, the
value itself for numbers, the string parse for strings, `None` otherwise. -/
def parse_numeric : Cell → Option Dec
  | .empty => none
  | .num v => some v
  | .str s => parse_numeric_str s
  | .date _ _ _ => none

/-- `to_ddmmyyyy` (`consolidado_v3.py` lines 113-128): datetime values are
formatted, numbers go through the Excel serial conversion, strings are
matched against `DATE_RE` and then the formats `%Y-%m-%d`, `%d-%m-%Y`,
`%d/%m/%y`. -/
def to_ddmmyyyy_v3 : Cell → Option (List Char)
  | .date y mo d => some (fmtDDMMYYYY y mo d)
  | .num v => excelSerial v
  | .empty => none
  | .str s =>
    let t := stripSpaces s
    if dateRE22 t then some t
    else tryFmts [tryYMDdash, tryDMYdash, tryDMy2slash] t

/-- `to_ddmmyyyy` of `britimp_consolidado_v4.py` (lines 128-144): same as the
v3 version except that `DATE_RE` accepts one-digit day and month fields. -/
def to_ddmmyyyy_brit : Cell → Option (List Char)
  | .date y mo d => some (fmtDDMMYYYY y mo d)
  | .num v => excelSerial v
  | .empty => none
  | .str s =>
    let t := stripSpaces s
    if dateRE12 t then some t
    else tryFmts [tryYMDdash, tryDMYdash, tryDMy2slash] t

/-- `to_ddmmyyyy` of `consolidado_v4.py` (lines 45-56): `None` for `nan`,
datetime formatted, numeric serial conversion (unguarded in the source: an
out-of-range serial raises there instead of returning `None`; no claim
exercises that corner), then `DATE_RE` and five `strptime` formats on
`str(v).strip()`. -/
def to_ddmmyyyy_v4 : Cell → Option (List Char)
  | .empty => none
  | .date y mo d => some (fmtDDMMYYYY y mo d)
  | .num v => excelSerial v
  | .str s =>
    let t := stripSpaces s
    if t.isEmpty then none
    else if dateRE22 t then some t
    else tryFmts [tryYMDdash, tryDMYdash, tryDMy2slash, tryDMYslash, tryMDYslash] t

/-! ## Currency normalization -/

/-- Model of `remove_accents` (NFD + strip combining marks) on the Spanish
upper-case repertoire the scripts encounter; other characters are unchanged. -/
def accentFold (c : Char) : Char :=
  if c == Char.ofNat 193 then 'A'        -- accented A
  else if c == Char.ofNat 201 then 'E'   -- accented E
  else if c == Char.ofNat 205 then 'I'   -- accented I
  else if c == Char.ofNat 211 then 'O'   -- accented O
  else if c == Char.ofNat 218 then 'U'   -- accented U
  else if c == Char.ofNat 209 then 'N'   -- enye
  else if c == Char.ofNat 220 then 'U'   -- U with diaeresis
  else c

/-- `remove_accents` applied character-wise. -/
def removeAccents (cs : List Char) : List Char := cs.map accentFold

/-- Python `s.replace(pat, rep)` for a non-empty pattern. -/
def replaceSub (pat rep : List Char) (hay : List Char) : List Char :=
  match hay with
  | [] => []
  | c :: rest =>
    if pat ≠ [] ∧ startsList pat (c :: rest) then
      rep ++ replaceSub pat rep (rest.drop (pat.length - 1))
    else c :: replaceSub pat rep rest
termination_by hay.length
decreasing_by
  · simp only [List.length_drop, List.length_cons]
    omega
  · simp only [List.length_cons]
    omega

/-- Upper-case letter test (for the regex class `[^A-Z0-9]`). -/
def isAZ (c : Char) : Bool := 'A' ≤ c && c ≤ 'Z'

/-- `normalize_divisa_to_iso` (`consolidado_v3.py` lines 211-220): fold the
value to an alphanumeric canon and classify it as `PYG`, `USD` or unknown.
The guarani-sign/`US$` replacements of the source are applied on the
normalized text. -/
def normalize_divisa_to_iso (s : List Char) : List Char :=
  let u := removeAccents (pyUpper (stripSpaces s))
  let u := replaceSub (Char.ofNat 8370 :: []) ("GS".data) u      -- guarani sign
  let u := replaceSub ("US$".data) ("USD".data) u
  let u := replaceSub ("U$S".data) ("USD".data) u
  let u := replaceSub ("U$D".data) ("USD".data) u
  let canon := u.filter (fun c => isAZ c || c.isDigit)
  if startsList ("GUAR".data) canon ||
      (canon ∈ ["PYG".data, "PYGS".data, "GS".data, "GUARANI".data, "GUARANIES".data]) then "PYG".data
  else if startsList ("DOL".data) canon || hasSub ("USD".data) canon ||
      (canon ∈ ["US".data, "USS".data]) then "USD".data
  else []

/-! ## Row text and cell scans shared by the statement extractors -/

/-- Join strings with single spaces (`" ".join(...)`). -/
def joinSpace : List (List Char) → List Char
  | [] => []
  | [x] => x
  | x :: xs => x ++ ' ' :: joinSpace xs

/-- `row_text` of `parse_ec_efect_xlsx_generic` / `parse_ec_bultos_atm_xlsx`
(`consolidado_v3.py` lines 322-323, 561-562): join `str(x)` of the cells that
are neither `nan` nor blank, then strip. -/
def rowTextV3 (row : List Cell) : List Char :=
  stripSpaces (joinSpace ((row.filter
    (fun c => !cellIsNa c && !(stripSpaces (cellStr c)).isEmpty)).map cellStr))

/-- `row_text` of `parse_ec_xlsx_generic` (`consolidado_v4.py` line 198):
join `str(x)` of the non-blank cells; `nan` cells pass the filter because
`str(nan) = "nan"` is non-blank. -/
def rowTextV4 (row : List Cell) : List Char :=
  joinSpace ((row.filter (fun c => !(stripSpaces (cellStr c)).isEmpty)).map cellStr)

/-- `row_text`-equivalent of `parse_ec_efect_bco_xlsx`
(`britimp_consolidado_v4.py` line 358): join of the non-`nan` non-blank
cells, without the final strip. -/
def rowTextBrit (row : List Cell) : List Char :=
  joinSpace ((row.filter
    (fun c => !cellIsNa c && !(stripSpaces (cellStr c)).isEmpty)).map cellStr)

/-- The date scan of every statement extractor: advance until the first cell
that `to_ddmmyyyy` accepts, returning the date and the remaining cells. -/
def scanDate (fd : Cell → Option (List Char)) : List Cell → Option (List Char × List Cell)
  | [] => none
  | c :: rest =>
    match fd c with
    | some f => some (f, rest)
    | none => scanDate fd rest

/-- The branch-label scan: first cell whose `str(x).strip()` is non-empty
(`nan` cells yield `"nan"`, which is non-empty). -/
def scanSuc : List Cell → Option (List Char × List Cell)
  | [] => none
  | c :: rest =>
    let s := stripSpaces (cellStr c)
    if s.isEmpty then scanSuc rest else some (s, rest)

/-- The receipt scan: first cell whose digit projection has at least five
digits. -/
def scanRecibo : List Cell → Option (List Char × List Cell)
  | [] => none
  | c :: rest =>
    let ds := clean_digits c
    if decide (5 ≤ ds.length) then some (ds, rest) else scanRecibo rest

/-- Movement direction section of the row state machine. -/
inductive Section
  | ingresos
  | egresos
deriving DecidableEq, Repr

/-- The `"INGRESOS"` / `"EGRESOS"` string of a section. -/
def sectionStr : Section → List Char
  | .ingresos => "INGRESOS".data
  | .egresos => "EGRESOS".data

/-- `"IN"` / `"OUT"` direction tag of a section. -/
def sectionDir : Section → List Char
  | .ingresos => "IN".data
  | .egresos => "OUT".data

/-! ## `parse_ec_efect_xlsx_generic` (`consolidado_v3.py` lines 555-648)

The per-sheet metadata (`agencia` from the `SUC:` regex, `fecha_archivo` from
the `ESTADO DE CUENTA ... DEL:` regex, `clasificacion` from the caller) is
extracted once per sheet in the source and is passed here as parameters. -/

/-- A `LedgerMovement` record as emitted by the v3 generic extractor. -/
structure MovRec where
  fecha : List Char
  sucursal : List Char
  recibo : List Char
  bultos : Option ℤ
  monto : Dec
  moneda : List Char
  ingEgr : List Char
  clasif : List Char
  fechaArch : Option (List Char)
  motivo : List Char
  agencia : List Char
deriving DecidableEq, Repr

/-- The numeric scan of the v3 generic extractor (lines 616-622): collect
every parseable number from the remaining cells, and remember the last
string cell that normalizes to a currency (`moneda_guess`, initially
`"PYG"`). -/
def v3NumsMoneda (cells : List Cell) : List Dec × List Char :=
  cells.foldl
    (fun acc c =>
      let nums := match parse_numeric c with
        | some n => acc.1 ++ [n]
        | none => acc.1
      let mon := match c with
        | .str s =>
          let iso := normalize_divisa_to_iso s
          if iso = "PYG".data ∨ iso = "USD".data then iso else acc.2
        | _ => acc.2
      (nums, mon))
    ([], "PYG".data)

/-- The data extraction of a v3 generic row (lines 596-622): date, branch,
receipt, then numbers and the currency guess.  `none` models `continue`. -/
def v3ExtractRow (row : List Cell) : Option (List Char × List Char × List Char × List Dec × List Char) :=
  (scanDate to_ddmmyyyy_v3 row).bind fun (f, r1) =>
  (scanSuc r1).bind fun (suc, r2) =>
  (scanRecibo r2).bind fun (rc, r3) =>
  some (f, suc, rc, (v3NumsMoneda r3).1, (v3NumsMoneda r3).2)

/-- Record built from a v3 generic data row (lines 624-644): the amount is
the LAST parsed number (`nums[-1]`, or `0.0` when there is none) and
`bultos` is the second-to-last number when it is integral. -/
def v3MkRec (clasif : List Char) (fechaArch : Option (List Char)) (agencia : List Char)
    (sec : Section) (motivo : Option (List Char))
    (f suc rc : List Char) (nums : List Dec) (mon : List Char) : MovRec :=
  { fecha := f, sucursal := suc, recibo := rc,
    bultos :=
      if 2 ≤ nums.length then
        let bn := nums.getD (nums.length - 2) Dec.zero
        if bn.isInt then some bn.m else none
      else none,
    monto := nums.getLastD Dec.zero,
    moneda := mon, ingEgr := sectionDir sec, clasif := clasif,
    fechaArch := fechaArch, motivo := motivo.getD (sectionStr sec),
    agencia := agencia }

/-- The row loop of `parse_ec_efect_xlsx_generic` (lines 576-644): the row
state machine over one sheet.  Note that this extractor has NO single-cell
sticky-reason rule: `motivo` is only ever cleared, never set, so every
emitted record carries the section label as its reason. -/
def v3GenScan (clasif : List Char) (fechaArch : Option (List Char)) (agencia : List Char) :
    List (List Cell) → Option Section → Option (List Char) → Bool → List MovRec
  | [], _, _, _ => []
  | row :: rest, sec, motivo, started =>
    let txt := pyUpper (rowTextV3 row)
    if hasSub ("SALDO ANTERIOR".data) txt then
      v3GenScan clasif fechaArch agencia rest none none false
    else if hasSub ("INGRESOS".data) txt && !hasSub ("EGRESOS".data) txt then
      v3GenScan clasif fechaArch agencia rest (some .ingresos) none true
    else if hasSub ("EGRESOS".data) txt then
      v3GenScan clasif fechaArch agencia rest (some .egresos) none true
    else if hasSub ("INFORME DE PROCESOS".data) txt || hasSub ("INFORME DE ERRORES".data) txt then
      []
    else
      match sec, started with
      | some s, true =>
        if hasSub ("TOTAL".data) txt && !(row.any (fun c => (to_ddmmyyyy_v3 c).isSome)) then
          v3GenScan clasif fechaArch agencia rest (some s) none true
        else
          (match v3ExtractRow row with
           | none => []
           | some (f, suc, rc, nums, mon) =>
             [v3MkRec clasif fechaArch agencia s motivo f suc rc nums mon]) ++
          v3GenScan clasif fechaArch agencia rest (some s) motivo true
      | _, _ => v3GenScan clasif fechaArch agencia rest sec motivo started

/-! ## `parse_ec_xlsx_generic` (`consolidado_v4.py` lines 194-232) -/

/-- A record of the v4 generic extractor: amounts are `as_int`-rounded
integers, the currency is hard-coded `"PYG"` and the reason is always the
section label (the v4 extractor has no `motivo` variable at all). -/
structure MovRecV4 where
  fecha : List Char
  sucursal : List Char
  recibo : List Char
  bultos : ℤ
  monto : ℤ
  moneda : List Char
  ingEgr : List Char
  clasif : List Char
  fechaArch : Option (List Char)
  motivo : List Char
  agencia : List Char
deriving DecidableEq, Repr

/-- The branch scan of v4 (lines 218-219): skip blank cells, then take the
next cell if any; there is no skip of the row when no branch is found. -/
def v4TakeSuc : List Cell → List Char × List Cell
  | [] => ([], [])
  | c :: rest =>
    let s := stripSpaces (cellStr c)
    if s.isEmpty then v4TakeSuc rest else (s, rest)

/-- Data extraction of a v4 row (lines 212-227): only a missing date skips
the row. -/
def v4ExtractRow (row : List Cell) : Option (List Char × List Char × List Char × List Dec) :=
  (scanDate to_ddmmyyyy_v4 row).bind fun (f, r1) =>
  let (suc, r2) := v4TakeSuc r1
  let (rc, r3) := match scanRecibo r2 with | some p => p | none => ([], [])
  some (f, suc, rc, r3.filterMap parse_numeric)

/-- Record built from a v4 data row (lines 228-230). -/
def v4MkRec (clasif agencia : List Char) (fechaArch : Option (List Char))
    (sec : Section) (f suc rc : List Char) (nums : List Dec) : MovRecV4 :=
  { fecha := f, sucursal := suc, recibo := rc,
    bultos := if 2 ≤ nums.length then (nums.getD (nums.length - 2) Dec.zero).roundHalfEven else 0,
    monto := (nums.getLastD Dec.zero).roundHalfEven,
    moneda := "PYG".data, ingEgr := sectionDir sec, clasif := clasif,
    fechaArch := fechaArch, motivo := sectionStr sec, agencia := agencia }

/-- The row loop of `parse_ec_xlsx_generic` (lines 206-230): no report
sentinel, no `TOTAL` clause, no sticky reason. -/
def v4GenScan (clasif agencia : List Char) (fechaArch : Option (List Char)) :
    List (List Cell) → Option Section → Bool → List MovRecV4
  | [], _, _ => []
  | row :: rest, sec, started =>
    let txt := pyUpper (rowTextV4 row)
    if hasSub ("SALDO ANTERIOR".data) txt then
      v4GenScan clasif agencia fechaArch rest none false
    else if hasSub ("INGRESOS".data) txt && !hasSub ("EGRESOS".data) txt then
      v4GenScan clasif agencia fechaArch rest (some .ingresos) true
    else if hasSub ("EGRESOS".data) txt then
      v4GenScan clasif agencia fechaArch rest (some .egresos) true
    else
      match sec, started with
      | some s, true =>
        (match v4ExtractRow row with
         | none => []
         | some (f, suc, rc, nums) => [v4MkRec clasif agencia fechaArch s f suc rc nums]) ++
        v4GenScan clasif agencia fechaArch rest (some s) true
      | _, _ => v4GenScan clasif agencia fechaArch rest sec started

/-! ## `parse_ec_bultos_atm_xlsx` (`consolidado_v3.py` lines 316-426) -/

/-- Zero-fill the numeric tail to four slots
(`while len(nums) < 4: nums.append(0.0)`, line 386). -/
def pad4 (l : List Dec) : List Dec := l ++ List.replicate (4 - l.length) Dec.zero

/-- A record of the bundle/dual-currency extractor. -/
structure BultosRec where
  fecha : List Char
  sucursal : List Char
  recibo : List Char
  bultos : Option ℤ
  monto : Dec
  moneda : List Char
  ingEgr : List Char
  clasif : List Char
  fechaArch : Option (List Char)
  motivo : List Char
  agencia : List Char
deriving DecidableEq, Repr

/-- `add_row` (lines 389-403): the bundle count is kept only when truthy and
integral; a falsy amount is written as `0.0` (the identity on the already
zero-padded value). -/
def mkBultosRec (sec : Section) (motivo : Option (List Char))
    (fechaArch : Option (List Char)) (agencia : List Char)
    (f suc rc moneda : List Char) (b m : Dec) : BultosRec :=
  { fecha := f, sucursal := suc, recibo := rc,
    bultos := if b ≠ Dec.zero ∧ b.isInt then some b.m else none,
    monto := m, moneda := moneda, ingEgr := sectionDir sec,
    clasif := "ATM".data, fechaArch := fechaArch,
    motivo := motivo.getD (sectionStr sec), agencia := agencia }

/-- The data extraction and currency-pair emission of one bundle row
(lines 362-414): date, branch and receipt are required; the numeric tail is
zero-padded to four slots `(bgs, mgs, busd, musd)`; a guarani record is
emitted iff the guarani pair is non-zero, a dollar record iff the dollar
pair is non-zero. -/
def bultosRowRecs (sec : Section) (motivo : Option (List Char))
    (fechaArch : Option (List Char)) (agencia : List Char)
    (row : List Cell) : List BultosRec :=
  match scanDate to_ddmmyyyy_v3 row with
  | none => []
  | some (f, r1) =>
    match scanSuc r1 with
    | none => []
    | some (suc, r2) =>
      match scanRecibo r2 with
      | none => []
      | some (rc, r3) =>
        let ns := pad4 (r3.filterMap parse_numeric)
        let bgs := ns.getD 0 Dec.zero
        let mgs := ns.getD 1 Dec.zero
        let busd := ns.getD 2 Dec.zero
        let musd := ns.getD 3 Dec.zero
        (if bgs ≠ Dec.zero ∨ mgs ≠ Dec.zero then
          [mkBultosRec sec motivo fechaArch agencia f suc rc ("PYG".data) bgs mgs]
         else []) ++
        (if busd ≠ Dec.zero ∨ musd ≠ Dec.zero then
          [mkBultosRec sec motivo fechaArch agencia f suc rc ("USD".data) busd musd]
         else [])

/-- The row loop of `parse_ec_bultos_atm_xlsx` (lines 337-414): like the v3
generic loop but WITH the single-cell sticky-reason rule (lines 357-360). -/
def bultosScan (fechaArch : Option (List Char)) (agencia : List Char) :
    List (List Cell) → Option Section → Option (List Char) → Bool → List BultosRec
  | [], _, _, _ => []
  | row :: rest, sec, motivo, started =>
    let txt := pyUpper (rowTextV3 row)
    if hasSub ("SALDO ANTERIOR".data) txt then
      bultosScan fechaArch agencia rest none none false
    else if hasSub ("INGRESOS".data) txt && !hasSub ("EGRESOS".data) txt then
      bultosScan fechaArch agencia rest (some .ingresos) none true
    else if hasSub ("EGRESOS".data) txt then
      bultosScan fechaArch agencia rest (some .egresos) none true
    else if hasSub ("INFORME DE PROCESOS".data) txt || hasSub ("INFORME DE ERRORES".data) txt then
      []
    else
      match sec, started with
      | some s, true =>
        if hasSub ("TOTAL".data) txt && !(row.any (fun c => (to_ddmmyyyy_v3 c).isSome)) then
          bultosScan fechaArch agencia rest (some s) none true
        else
          let nonempty := row.filter (fun c => !(stripSpaces (cellStr c)).isEmpty && !cellIsNa c)
          if nonempty.length == 1 && !dateRE22 (stripSpaces (cellStr (nonempty.headD .empty))) then
            bultosScan fechaArch agencia rest (some s)
              (some (stripSpaces (cellStr (nonempty.headD .empty)))) true
          else
            bultosRowRecs s motivo fechaArch agencia row ++
            bultosScan fechaArch agencia rest (some s) motivo true
      | _, _ => bultosScan fechaArch agencia rest sec motivo started

/-! ## `parse_ec_efect_bco_xlsx` (`britimp_consolidado_v4.py` lines 318-401) -/

/-- A record of britimp's bank-statement extractor. -/
structure BcoRec where
  fecha : List Char
  sucursal : List Char
  recibo : List Char
  bultos : Option ℤ
  importe : Dec
  moneda : List Char
  ingEgr : List Char
  clasif : List Char
  fechaArch : Option (List Char)
  motivo : List Char
  agencia : List Char
deriving DecidableEq, Repr

/-- Python `max` on a non-empty list of floats (first maximal element; on
canonical decimals equal values are identical, so the choice of
representative is irrelevant). -/
def maxD : List Dec → Dec
  | [] => Dec.zero
  | [x] => x
  | x :: y :: t => let m := maxD (y :: t); if Dec.le x m then m else x

/-- Data extraction of a britimp bank-statement row (lines 371-387): date and
branch are required; a missing receipt leaves the scan exhausted, making the
candidate list empty; a row with no numeric candidates is skipped. -/
def britimpExtractRow (row : List Cell) : Option (List Char × List Char × List Char × List Dec) :=
  (scanDate to_ddmmyyyy_brit row).bind fun (f, r1) =>
  (scanSuc r1).bind fun (suc, r2) =>
  let (rc, r3) := match scanRecibo r2 with | some p => p | none => ([], [])
  let cands := r3.filterMap parse_numeric
  if cands.isEmpty then none else some (f, suc, rc, cands)

/-- Record built from an accepted britimp row (lines 389-395): the amount is
`max(importe_candidates)`. -/
def britimpRowRecord (sec : Section) (motivo : Option (List Char))
    (moneda : List Char) (fechaArch : Option (List Char))
    (extra agencia : List Char) (row : List Cell) : Option BcoRec :=
  (britimpExtractRow row).map fun (f, suc, rc, cands) =>
    { fecha := f, sucursal := suc, recibo := rc, bultos := none,
      importe := maxD cands, moneda := moneda, ingEgr := sectionDir sec,
      clasif := "BCO".data, fechaArch := fechaArch,
      motivo := (motivo.getD (sectionStr sec)) ++ extra, agencia := agencia }

/-! ## Authenticity gates and the document-type dispatcher

The gates receive `txt`, the preview text after
`unir_letras_separadas(file_text_preview(path)).upper()`, and `fnameU`, the
filename after `remove_accents(path.name).upper()` — the exact values the
sources compute before any comparison below. -/

/-- The fixed competing-institution list (`NEGATIVE_BANKS`), identical in
all three scripts. -/
def NEGATIVE_BANKS : List (List Char) :=
  ["CONTINENTAL".data, "BBVA".data, "GNB".data, "REGIONAL".data, "BASA".data,
   "VISION".data, "ATLAS".data, "SUDAMERIS".data, "FAMILIAR".data,
   "ITAPUA".data, "AMAMBAY".data]

/-- `name_matches` (`consolidado_v3.py` lines 173-180 and
`britimp_consolidado_v4.py` lines 184-187): the target must contain at least
one token of every group.  The tokens used by the scripts are plain ASCII
upper-case, so their own `remove_accents(...).upper()` is the identity and
the already-normalized target can be compared directly. -/
def name_matches (target : List Char) (groups : List (List (List Char))) : Bool :=
  groups.all fun g => g.any fun tok => hasSub tok target

/-- After `"CLIENTE"`, at most `budget` characters outside `[A-Z0-9]` may
precede `"ITAU"` (the regex tail `[^A-Z0-9]{0,10}ITAU`). -/
def gapThenItau : ℕ → List Char → Bool
  | budget, cs =>
    if startsList ("ITAU".data) cs then true
    else match budget, cs with
      | b + 1, c :: rest => if !(isAZ c || c.isDigit) then gapThenItau b rest else false
      | _, _ => false

/-- The regex search `CLIENTE[^A-Z0-9]{0,10}ITAU` over the preview text. -/
def containsClienteItau : List Char → Bool
  | [] => false
  | c :: rest =>
    (startsList ("CLIENTE".data) (c :: rest) && gapThenItau 10 ((c :: rest).drop 7)) ||
      containsClienteItau rest

/-- The default filename shape of the v3/v4 gates: one token of each of the
three groups (document kind, channel, banknote/cash). -/
def pipelineGroups : List (List (List Char)) :=
  [["INV".data, "EC".data, "CTA".data, "ESTADO".data, "PLANILLA".data],
   ["ATM".data, "BCO".data, "BANCO".data, "BULTO".data, "EFECT".data],
   ["BILLETE".data, "BILLETES".data, "EFECTIVO".data]]

/-- `detect_cliente_itau` (`consolidado_v3.py` lines 257-271, with the
default `filename_tokens_hint`): competing bank in the text rejects; an
explicit client/institution phrase in the text accepts; otherwise the
filename shape must match and the filename must not name a competing bank. -/
def detect_cliente_itau_v3 (txt fnameU : List Char) : Bool :=
  if NEGATIVE_BANKS.any (fun b => hasSub b txt) then false
  else if containsClienteItau txt then true
  else if hasSub ("BANCO ITAU".data) txt then true
  else if hasSub ("CLIENTE: BANCO ITAU".data) txt then true
  else
    name_matches fnameU pipelineGroups &&
      !(NEGATIVE_BANKS.any (fun b => hasSub b fnameU))

/-- `detect_itau` (`consolidado_v4.py` lines 118-126): same text checks as
the v3 gate, but the filename fallback does NOT check the filename for
competing-institution names. -/
def detect_itau_v4 (txt fnameU : List Char) : Bool :=
  if NEGATIVE_BANKS.any (fun b => hasSub b txt) then false
  else if containsClienteItau txt then true
  else if hasSub ("BANCO ITAU".data) txt || hasSub ("CLIENTE: BANCO ITAU".data) txt then true
  else name_matches fnameU pipelineGroups

/-- The inventory filename groups of the britimp gate and dispatcher. -/
def invGateGroups : List (List (List Char)) :=
  [["INV".data], ["BILLETE".data], ["ATM".data, "BCO".data, "BANCO".data]]

/-- The statement filename groups of the britimp gate. -/
def ecGateGroups : List (List (List Char)) :=
  [["EC".data], ["ATM".data, "BCO".data, "BANCO".data, "BULTO".data],
   ["EFECTIVO".data, "BILLETE".data]]

/-- `detect_cliente_itau` (`britimp_consolidado_v4.py` lines 252-279):
competing bank in text or filename rejects; `"ITAU"` in text or filename
accepts; a statement-typed document matching the statement filename shape is
rejected ("no menciona ITAU"); an inventory-typed document matching the
inventory filename shape is accepted; everything else is rejected. -/
def detect_cliente_itau_brit (txt fnameU : List Char) (tipo : Option (List Char)) : Bool :=
  if NEGATIVE_BANKS.any (fun b => hasSub b txt || hasSub b fnameU) then false
  else if hasSub ("ITAU".data) txt || hasSub ("ITAU".data) fnameU then true
  else if (tipo.elim false fun t => hasSub ("EC_".data) t) &&
      name_matches fnameU ecGateGroups then false
  else if (tipo.elim false fun t => hasSub ("INV_".data) t) &&
      name_matches fnameU invGateGroups then true
  else false

/-- `dispatch_tipo` (`britimp_consolidado_v4.py` lines 296-314): explicit
filename shapes first, then content-based resolution for `INV` names. -/
def dispatch_tipo_brit (fnameU upText : List Char) : Option (List Char) :=
  if name_matches fnameU [["EC".data], ["BULTO".data], ["ATM".data]] then
    some ("EC_BULTO_ATM".data)
  else if name_matches fnameU [["EC".data], ["EFECT".data], ["ATM".data]] then
    some ("EC_EFECT_ATM".data)
  else if name_matches fnameU [["EC".data], ["EFECT".data], ["BCO".data, "BANCO".data]] then
    some ("EC_EFECT_BCO".data)
  else if name_matches fnameU [["INV".data], ["BILLETE".data], ["ATM".data]] then
    some ("INV_BILLETES_ATM".data)
  else if name_matches fnameU [["INV".data], ["BILLETE".data], ["BCO".data, "BANCO".data]] then
    some ("INV_BILLETES_BCO".data)
  else if hasSub ("INV".data) fnameU then
    if hasSub ("INVENTARIO DE BILLETES DE ATM".data) upText then
      some ("INV_BILLETES_ATM".data)
    else if hasSub ("INVENTARIO DE BILLETES DE BANCO".data) upText then
      some ("INV_BILLETES_BCO".data)
    else some ("INV_BILLETES_UNKNOWN".data)
  else none

/-! ## The consolidated writer (`write_consolidated`)

Rows are abstracted as opaque numbers (the writer never inspects a row, it
only reorders columns, which preserves the number and order of rows).  The
per-run `RUN_WRITTEN` marker set and the per-type daily output files are the
explicit state. -/

/-- A line of a daily output file: the header line or a data row. -/
inductive Entry
  | header
  | data (n : ℕ)
deriving DecidableEq, Repr

/-- Writer state: the `RUN_WRITTEN` set and the contents of the daily output
file of each type (`[]` both for an absent and for an empty file). -/
structure WState where
  runWritten : List (List Char)
  files : List Char → List Entry

/-- The recognized output types (`OUTPUT_FILES` keys, identical in the three
scripts). -/
def OUTPUT_tipos : List (List Char) :=
  ["EC_EFECT_BCO".data, "EC_EFECT_ATM".data, "INV_BILLETES_BCO".data,
   "INV_BILLETES_ATM".data, "EC_BULTO_ATM".data]

/-- `write_consolidated` (`consolidado_v3.py` lines 737-762): no-op for an
unknown type or an empty frame; on the first write of the run for a type,
delete any pre-existing same-day file and write header plus rows; afterwards
append rows without a header. -/
def write_consolidated_v3 (tipo : List Char) (df : List ℕ) (st : WState) : WState :=
  if tipo ∉ OUTPUT_tipos ∨ df = [] then st
  else if tipo ∉ st.runWritten then
    { runWritten := tipo :: st.runWritten,
      files := fun t => if t = tipo then Entry.header :: df.map Entry.data else st.files t }
  else
    { st with
      files := fun t => if t = tipo then st.files tipo ++ df.map Entry.data else st.files t }

/-- `write_consolidated` (`consolidado_v4.py` lines 242-262): identical
behaviour, with the guard written `df.empty or tipo not in OUTPUT`. -/
def write_consolidated_v4 (tipo : List Char) (df : List ℕ) (st : WState) : WState :=
  if df = [] ∨ tipo ∉ OUTPUT_tipos then st
  else if tipo ∉ st.runWritten then
    { runWritten := tipo :: st.runWritten,
      files := fun t => if t = tipo then Entry.header :: df.map Entry.data else st.files t }
  else
    { st with
      files := fun t => if t = tipo then st.files tipo ++ df.map Entry.data else st.files t }

/-- `write_consolidated` (`britimp_consolidado_v4.py` lines 511-521): the
file is never deleted and the mode is always `'a'`; the first write of the
run merely appends a header (after any pre-existing content) before its
rows. -/
def write_consolidated_brit (tipo : List Char) (df : List ℕ) (st : WState) : WState :=
  if tipo ∉ OUTPUT_tipos ∨ df = [] then st
  else if tipo ∉ st.runWritten then
    { runWritten := tipo :: st.runWritten,
      files := fun t =>
        if t = tipo then st.files tipo ++ Entry.header :: df.map Entry.data else st.files t }
  else
    { st with
      files := fun t => if t = tipo then st.files tipo ++ df.map Entry.data else st.files t }

/-! ## The text previewer (`file_text_preview`) -/

/-- A Python computation that either returns a value or raises. -/
inductive PyResult (α : Type)
  | ok (a : α)
  | exn
deriving DecidableEq, Repr

/-- Source-file kinds distinguished by `file_text_preview`. -/
inductive FileExt
  | xlsx
  | xls
  | pdf
  | other
deriving DecidableEq, Repr

/-- `file_text_preview` (`consolidado_v3.py` lines 226-255) with its I/O
modelled explicitly: `openDefault` / `openFallback` are the two
`pd.ExcelFile` attempts (only the FIRST is inside a `try`), `sheetLines` is
the per-sheet `pd.read_excel` loop (not guarded either), `pdfText` the
guarded PDF extraction, `bytesRead` the guarded raw 4096-byte read used for
other extensions (and for PDFs when the PDF library is unavailable). -/
def file_text_preview_v3 (ext : FileExt) (openDefault openFallback : PyResult Unit)
    (sheetLines : PyResult (List Char)) (pdfLib : Bool)
    (pdfText : PyResult (List Char)) (bytesRead : PyResult (List Char)) :
    PyResult (List Char) :=
  match ext with
  | .xlsx | .xls =>
    (match openDefault with
     | .ok _ => sheetLines
     | .exn =>
       match openFallback with
       | .ok _ => sheetLines
       | .exn => .exn)
  | .pdf =>
    if pdfLib then
      match pdfText with
      | .ok t => .ok t
      | .exn => .ok []
    else
      match bytesRead with
      | .ok sdata => .ok sdata
      | .exn => .ok []
  | .other =>
    match bytesRead with
    | .ok sdata => .ok sdata
    | .exn => .ok []

/-! ## Helper lemmas for the numeric-normalization theorems -/

theorem filter_keep_of_all {p : Char → Bool} :
    ∀ {l : List Char}, (∀ c ∈ l, p c = true) → l.filter p = l := by
  intro l h
  induction l with
  | nil => rfl
  | cons c rest ih =>
    simp only [List.filter_cons, h c (List.mem_cons_self c rest), ite_true]
    rw [ih fun x hx => h x (List.mem_cons_of_mem c hx)]

theorem map_id_of_mem {f : Char → Char} :
    ∀ {l : List Char}, (∀ c ∈ l, f c = c) → l.map f = l := by
  intro l h
  induction l with
  | nil => rfl
  | cons c rest ih =>
    simp only [List.map_cons, h c (List.mem_cons_self c rest)]
    rw [ih fun x hx => h x (List.mem_cons_of_mem c hx)]

theorem dropWhile_eq_of_none {p : Char → Bool} :
    ∀ {l : List Char}, (∀ c ∈ l, p c = false) → l.dropWhile p = l := by
  intro l h
  cases l with
  | nil => rfl
  | cons c rest => simp [List.dropWhile_cons, h c (List.mem_cons_self c rest)]

theorem stripSpaces_of_no_space {l : List Char}
    (h : ∀ c ∈ l, (c == ' ') = false) : stripSpaces l = l := by
  unfold stripSpaces
  rw [dropWhile_eq_of_none h]
  rw [dropWhile_eq_of_none fun c hc => h c (List.mem_reverse.mp hc)]
  exact List.reverse_reverse l

theorem any_eq_false_of {p : Char → Bool} :
    ∀ {l : List Char}, (∀ c ∈ l, p c = false) → l.any p = false := by
  intro l h
  induction l with
  | nil => rfl
  | cons c rest ih =>
    simp only [List.any_cons, h c (List.mem_cons_self c rest), Bool.false_or]
    exact ih fun x hx => h x (List.mem_cons_of_mem c hx)

theorem splitOnChar_ne_nil (sep : Char) : ∀ l, splitOnChar sep l ≠ [] := by
  intro l
  cases l with
  | nil => simp [splitOnChar]
  | cons c rest =>
    unfold splitOnChar
    by_cases h : (c == sep) = true <;> simp [h]

theorem splitOnChar_no_sep {sep : Char} :
    ∀ {l : List Char}, (∀ c ∈ l, (c == sep) = false) → splitOnChar sep l = [l] := by
  intro l h
  induction l with
  | nil => rfl
  | cons c rest ih =>
    unfold splitOnChar
    rw [ih fun x hx => h x (List.mem_cons_of_mem c hx)]
    simp [h c (List.mem_cons_self c rest)]

theorem splitOnChar_append_sep {sep : Char} :
    ∀ {a : List Char} (b : List Char), (∀ c ∈ a, (c == sep) = false) →
      splitOnChar sep (a ++ sep :: b) = a :: splitOnChar sep b := by
  intro a
  induction a with
  | nil =>
    intro b _
    show splitOnChar sep (sep :: b) = [] :: splitOnChar sep b
    conv_lhs => rw [splitOnChar]
    simp
  | cons c rest ih =>
    intro b h
    have hrest := ih b fun x hx => h x (List.mem_cons_of_mem c hx)
    show splitOnChar sep (c :: (rest ++ sep :: b)) = (c :: rest) :: splitOnChar sep b
    conv_lhs => rw [splitOnChar]
    rw [hrest]
    simp [h c (List.mem_cons_self c rest)]

theorem digit_beq_false {c x : Char} (hc : c.isDigit = true)
    (hx : x.isDigit = false) : (c == x) = false := by
  cases hbe : (c == x) with
  | false => rfl
  | true =>
    rw [beq_iff_eq.mp hbe] at hc
    rw [hc] at hx
    cases hx

theorem isEmpty_append_cons (a : List Char) (c : Char) (b : List Char) :
    (a ++ c :: b).isEmpty = false := by
  cases a <;> simp [List.isEmpty]

theorem head?_append_cons (a : List Char) (c : Char) (b : List Char) :
    (a ++ c :: b).head? = some (match a with | [] => c | x :: _ => x) := by
  cases a <;> simp

theorem isNumKeep_digit {c : Char} (h : c.isDigit = true) : isNumKeep c = true := by
  simp [isNumKeep, h]

theorem nbspToSpace_digit {c : Char} (h : c.isDigit = true) : nbspToSpace c = c := by
  unfold nbspToSpace
  rw [digit_beq_false h (by decide)]
  rfl

theorem space_beq_digit {c : Char} (h : c.isDigit = true) : (c == ' ') = false :=
  digit_beq_false h (by decide)

theorem pyFloat_cons_ne_minus {c : Char} {rest : List Char} (h : (c == '-') = false) :
    pyFloat (c :: rest) = pyFloatUnsigned (c :: rest) := by
  show (if (c == '-') = true then Option.map Dec.neg (pyFloatUnsigned rest)
        else pyFloatUnsigned (c :: rest)) = _
  rw [h]
  simp

theorem pyFloatUnsigned_of_split_two {cs ip fp : List Char}
    (h : splitOnChar '.' cs = [ip, fp]) :
    pyFloatUnsigned cs =
      if ip.all (·.isDigit) && fp.all (·.isDigit) && (!ip.isEmpty || !fp.isEmpty)
      then some (Dec.make (digitsVal ip * 10 ^ fp.length + digitsVal fp) fp.length)
      else none := by
  unfold pyFloatUnsigned
  rw [h]

theorem pyFloatUnsigned_of_split_one {cs ip : List Char}
    (h : splitOnChar '.' cs = [ip]) :
    pyFloatUnsigned cs =
      if !ip.isEmpty && ip.all (·.isDigit) then some ⟨(digitsVal ip : ℤ), 0⟩
      else none := by
  unfold pyFloatUnsigned
  rw [h]

theorem pyFloatUnsigned_of_split_big {cs p1 p2 p3 : List Char} {rest : List (List Char)}
    (h : splitOnChar '.' cs = p1 :: p2 :: p3 :: rest) : pyFloatUnsigned cs = none := by
  unfold pyFloatUnsigned
  rw [h]

theorem parse_lone_comma (a b : List Char)
    (ha : ∀ x ∈ a, x.isDigit = true) (hb : ∀ x ∈ b, x.isDigit = true)
    (hne : a ≠ [] ∨ b ≠ []) :
    parse_numeric_str (a ++ ',' :: b) =
      some (if b.length ≤ 2
            then Dec.make (digitsVal a * 10 ^ b.length + digitsVal b) b.length
            else ⟨(digitsVal (a ++ b) : ℤ), 0⟩) := by
  have hmem : ∀ x ∈ a ++ ',' :: b, x.isDigit = true ∨ x = ',' := by
    intro x hx
    rcases List.mem_append.mp hx with h | h
    · exact Or.inl (ha x h)
    · rcases List.mem_cons.mp h with h | h
      · exact Or.inr h
      · exact Or.inl (hb x h)
  -- the sanitizer, nbsp replacement and strip are the identity here
  have h1 : (a ++ ',' :: b).filter isNumKeep = a ++ ',' :: b := by
    apply filter_keep_of_all
    intro c hc
    rcases hmem c hc with h | h
    · exact isNumKeep_digit h
    · rw [h]; decide
  have h2 : (a ++ ',' :: b).map nbspToSpace = a ++ ',' :: b := by
    apply map_id_of_mem
    intro c hc
    rcases hmem c hc with h | h
    · exact nbspToSpace_digit h
    · rw [h]; decide
  have h3 : stripSpaces (a ++ ',' :: b) = a ++ ',' :: b := by
    apply stripSpaces_of_no_space
    intro c hc
    rcases hmem c hc with h | h
    · exact space_beq_digit h
    · rw [h]; decide
  unfold parse_numeric_str
  simp only [h1, h2, h3]
  rw [if_neg, if_neg]
  · -- main branch
    have h5 : (a ++ ',' :: b).filter (· != ' ') = a ++ ',' :: b := by
      apply filter_keep_of_all
      intro c hc
      rcases hmem c hc with h | h
      · simp [bne, space_beq_digit h]
      · rw [h]; decide
    rw [h5]
    have hnoCommaA : ∀ x ∈ a, (x == ',') = false :=
      fun x hx => digit_beq_false (ha x hx) (by decide)
    have hnoCommaB : ∀ x ∈ b, (x == ',') = false :=
      fun x hx => digit_beq_false (hb x hx) (by decide)
    have hnoDotA : ∀ x ∈ a, (x == '.') = false :=
      fun x hx => digit_beq_false (ha x hx) (by decide)
    have hnoDotB : ∀ x ∈ b, (x == '.') = false :=
      fun x hx => digit_beq_false (hb x hx) (by decide)
    have hAnyComma : (a ++ ',' :: b).any (· == ',') = true := by
      simp [List.any_append, List.any_cons]
    have hAnyDot : (a ++ ',' :: b).any (· == '.') = false := by
      apply any_eq_false_of
      intro x hx
      rcases hmem x hx with h | h
      · exact digit_beq_false h (by decide)
      · rw [h]; decide
    have hsplit : splitOnChar ',' (a ++ ',' :: b) = [a, b] := by
      rw [splitOnChar_append_sep b hnoCommaA, splitOnChar_no_sep hnoCommaB]
    unfold commaDotNormalize
    rw [hAnyComma, hAnyDot]
    simp only [Bool.true_and, Bool.and_false, Bool.false_eq_true, if_false, if_true, hsplit]
    by_cases hb2 : b.length ≤ 2
    · rw [if_pos ⟨by simp, by simpa using hb2⟩, if_pos hb2]
      have hmap : (a ++ ',' :: b).map (fun c => if c == ',' then '.' else c) = a ++ '.' :: b := by
        rw [List.map_append, List.map_cons]
        rw [map_id_of_mem (fun x hx => by simp [hnoCommaA x hx])]
        rw [map_id_of_mem (fun x hx => by simp [hnoCommaB x hx])]
        norm_num
      rw [hmap]
      have hballb : b.all (·.isDigit) = true := List.all_eq_true.mpr hb
      cases a with
      | nil =>
        have hbne : b ≠ [] := hne.resolve_left (by intro h; exact h rfl)
        have hbem : b.isEmpty = false := by
          cases b with
          | nil => exact absurd rfl hbne
          | cons _ _ => rfl
        have hsplitDot : splitOnChar '.' (([] : List Char) ++ '.' :: b) = [[], b] := by
          rw [splitOnChar_append_sep b (by intro x hx; cases hx), splitOnChar_no_sep hnoDotB]
        simp only [List.nil_append] at hsplitDot ⊢
        rw [pyFloat_cons_ne_minus (by decide), pyFloatUnsigned_of_split_two hsplitDot]
        simp [hballb, hbem, digitsVal]
      | cons x a' =>
        have hx : x.isDigit = true := ha x (List.mem_cons_self x a')
        have hsplitDot : splitOnChar '.' ((x :: a') ++ '.' :: b) = [x :: a', b] := by
          rw [splitOnChar_append_sep b hnoDotA, splitOnChar_no_sep hnoDotB]
        simp only [List.cons_append] at hsplitDot ⊢
        rw [pyFloat_cons_ne_minus (digit_beq_false hx (by decide)),
          pyFloatUnsigned_of_split_two hsplitDot]
        have hballa : (x :: a').all (·.isDigit) = true := List.all_eq_true.mpr ha
        simp [hballa, hballb]
    · rw [if_neg (by intro hcon; exact hb2 (by simpa using hcon.2)), if_neg hb2]
      have hfilt : (a ++ ',' :: b).filter (· != ',') = a ++ b := by
        rw [List.filter_append, List.filter_cons]
        rw [filter_keep_of_all (fun x hx => by simp [bne, hnoCommaA x hx])]
        rw [filter_keep_of_all (fun x hx => by simp [bne, hnoCommaB x hx])]
        norm_num
      rw [hfilt]
      have hall : ∀ x ∈ a ++ b, x.isDigit = true :=
        fun x hx => (List.mem_append.mp hx).elim (ha x) (hb x)
      have hbne : b ≠ [] := by
        intro hcon
        rw [hcon] at hb2
        simp at hb2
      obtain ⟨y, t, hab⟩ : ∃ y t, a ++ b = y :: t := by
        cases hcase : a ++ b with
        | nil => exact absurd (List.append_eq_nil.mp hcase).2 hbne
        | cons y t => exact ⟨y, t, rfl⟩
      rw [hab]
      have hally : ∀ x ∈ y :: t, x.isDigit = true := fun x hx => hall x (hab ▸ hx)
      have hy : y.isDigit = true := hally y (List.mem_cons_self y t)
      rw [pyFloat_cons_ne_minus (digit_beq_false hy (by decide)),
        pyFloatUnsigned_of_split_one
          (splitOnChar_no_sep (fun x hx => digit_beq_false (hally x hx) (by decide)))]
      simp [List.all_eq_true.mpr hally]
  · -- not the parenthesized-negative shape
    intro hcontra
    rcases hcontra with ⟨hh, _⟩
    rw [head?_append_cons] at hh
    cases a with
    | nil => simp at hh
    | cons x a' =>
      simp only [Option.some.injEq] at hh
      have := ha x (List.mem_cons_self x a')
      rw [hh] at this
      cases this
  · -- not empty
    rw [isEmpty_append_cons]
    simp

theorem parse_dotted_groups (a b c : List Char)
    (ha : ∀ x ∈ a, x.isDigit = true) (hb : ∀ x ∈ b, x.isDigit = true)
    (hc : ∀ x ∈ c, x.isDigit = true ∨ x = '.') :
    parse_numeric_str (a ++ '.' :: (b ++ '.' :: c)) = none := by
  have hmem : ∀ x ∈ a ++ '.' :: (b ++ '.' :: c), x.isDigit = true ∨ x = '.' := by
    intro x hx
    rcases List.mem_append.mp hx with h | h
    · exact Or.inl (ha x h)
    · rcases List.mem_cons.mp h with h | h
      · exact Or.inr h
      · rcases List.mem_append.mp h with h | h
        · exact Or.inl (hb x h)
        · rcases List.mem_cons.mp h with h | h
          · exact Or.inr h
          · exact hc x h
  have h1 : (a ++ '.' :: (b ++ '.' :: c)).filter isNumKeep = a ++ '.' :: (b ++ '.' :: c) := by
    apply filter_keep_of_all
    intro x hx
    rcases hmem x hx with h | h
    · exact isNumKeep_digit h
    · rw [h]; decide
  have h2 : (a ++ '.' :: (b ++ '.' :: c)).map nbspToSpace = a ++ '.' :: (b ++ '.' :: c) := by
    apply map_id_of_mem
    intro x hx
    rcases hmem x hx with h | h
    · exact nbspToSpace_digit h
    · rw [h]; decide
  have h3 : stripSpaces (a ++ '.' :: (b ++ '.' :: c)) = a ++ '.' :: (b ++ '.' :: c) := by
    apply stripSpaces_of_no_space
    intro x hx
    rcases hmem x hx with h | h
    · exact space_beq_digit h
    · rw [h]; decide
  unfold parse_numeric_str
  simp only [h1, h2, h3]
  rw [if_neg, if_neg]
  · have h5 : (a ++ '.' :: (b ++ '.' :: c)).filter (· != ' ') = a ++ '.' :: (b ++ '.' :: c) := by
      apply filter_keep_of_all
      intro x hx
      rcases hmem x hx with h | h
      · simp [bne, space_beq_digit h]
      · rw [h]; decide
    rw [h5]
    have hAnyComma : (a ++ '.' :: (b ++ '.' :: c)).any (· == ',') = false := by
      apply any_eq_false_of
      intro x hx
      rcases hmem x hx with h | h
      · exact digit_beq_false h (by decide)
      · rw [h]; decide
    have hnorm : commaDotNormalize (a ++ '.' :: (b ++ '.' :: c)) = a ++ '.' :: (b ++ '.' :: c) := by
      unfold commaDotNormalize
      rw [hAnyComma]
      simp
    rw [hnorm]
    obtain ⟨p1, prest, hcsplit⟩ : ∃ p1 prest, splitOnChar '.' c = p1 :: prest := by
      cases hcase : splitOnChar '.' c with
      | nil => exact absurd hcase (splitOnChar_ne_nil '.' c)
      | cons p1 prest => exact ⟨p1, prest, rfl⟩
    have hsplit : splitOnChar '.' (a ++ '.' :: (b ++ '.' :: c)) = a :: b :: p1 :: prest := by
      rw [splitOnChar_append_sep (b ++ '.' :: c)
        (fun x hx => digit_beq_false (ha x hx) (by decide))]
      rw [splitOnChar_append_sep c (fun x hx => digit_beq_false (hb x hx) (by decide))]
      rw [hcsplit]
    cases hall : a ++ '.' :: (b ++ '.' :: c) with
    | nil => cases a <;> simp at hall
    | cons y t =>
      have hy : y.isDigit = true ∨ y = '.' := hmem y (hall ▸ List.mem_cons_self y t)
      have hyne : (y == '-') = false := by
        rcases hy with h | h
        · exact digit_beq_false h (by decide)
        · rw [h]; decide
      rw [hall] at hsplit
      rw [pyFloat_cons_ne_minus hyne, pyFloatUnsigned_of_split_big hsplit]
  · intro hcontra
    rcases hcontra with ⟨hh, _⟩
    rw [head?_append_cons] at hh
    cases a with
    | nil => simp at hh
    | cons x a' =>
      simp only [Option.some.injEq] at hh
      have := ha x (List.mem_cons_self x a')
      rw [hh] at this
      cases this
  · rw [isEmpty_append_cons]
    simp


theorem Dec.le_refl (a : Dec) : a.le a = true := by
  unfold Dec.le
  simp

theorem Dec.le_of_not_le {a b : Dec} (h : ¬ a.le b = true) : b.le a = true := by
  unfold Dec.le at *
  rw [decide_eq_true_eq] at *
  rw [not_le] at h
  exact le_of_lt h

theorem Dec.le_trans {a b c : Dec} (h1 : a.le b = true) (h2 : b.le c = true) :
    a.le c = true := by
  unfold Dec.le at *
  rw [decide_eq_true_eq] at h1 h2 ⊢
  have hb : (0:ℤ) < 10 ^ b.e := pow_pos (by norm_num) _
  have h1' := mul_le_mul_of_nonneg_right h1
    (le_of_lt (pow_pos (show (0:ℤ) < 10 by norm_num) c.e))
  have h2' := mul_le_mul_of_nonneg_right h2
    (le_of_lt (pow_pos (show (0:ℤ) < 10 by norm_num) a.e))
  have hch : a.m * 10 ^ c.e * 10 ^ b.e ≤ c.m * 10 ^ a.e * 10 ^ b.e := by nlinarith
  exact le_of_mul_le_mul_right hch hb

theorem maxD_mem : ∀ (l : List Dec), l ≠ [] → maxD l ∈ l
  | [], h => absurd rfl h
  | [x], _ => by simp [maxD]
  | x :: y :: t, _ => by
    by_cases h : Dec.le x (maxD (y :: t)) = true
    · have := maxD_mem (y :: t) (by simp)
      simp only [maxD, h, if_true]
      exact List.mem_cons_of_mem x this
    · simp [maxD, h]

theorem le_maxD : ∀ (l : List Dec), ∀ z ∈ l, z.le (maxD l) = true
  | [], z, hz => absurd hz (List.not_mem_nil z)
  | [x], z, hz => by
    rcases List.mem_singleton.mp hz with rfl
    simp [maxD, Dec.le_refl]
  | x :: y :: t, z, hz => by
    have ih := le_maxD (y :: t)
    by_cases h : Dec.le x (maxD (y :: t)) = true
    · simp only [maxD, h, if_true]
      rcases List.mem_cons.mp hz with rfl | hz'
      · exact h
      · exact ih z hz'
    · simp only [maxD, h, if_false]
      rcases List.mem_cons.mp hz with rfl | hz'
      · exact Dec.le_refl z
      · exact Dec.le_trans (ih z hz') (Dec.le_of_not_le h)

theorem britimpExtractRow_cands_ne_nil {row : List Cell} {f suc rc : List Char}
    {cands : List Dec}
    (h : britimpExtractRow row = some (f, suc, rc, cands)) : cands ≠ [] := by
  unfold britimpExtractRow at h
  rcases hd : scanDate to_ddmmyyyy_brit row with _ | ⟨f', r1⟩ <;> rw [hd] at h
  · simp at h
  · simp only [Option.some_bind] at h
    rcases hs : scanSuc r1 with _ | ⟨suc', r2⟩ <;> rw [hs] at h
    · simp at h
    · simp only [Option.some_bind] at h
      split at h
      · exact absurd h (by simp)
      · rename_i hne
        simp only [Option.some.injEq, Prod.mk.injEq] at h
        intro hcon
        rw [← h.2.2.2] at hcon
        rw [hcon] at hne
        simp at hne

/-- C6 (amended): for every data row accepted by britimp's
`parse_ec_efect_bco_xlsx` (a parseable date, a branch label, and a
non-empty list of numeric candidates after the receipt scan), the emitted
amount is the MAXIMUM of the numeric candidates: it is one of them and
bounds all of them.  The v3/v4 generic extractors instead take the LAST
numeric value (see the counterexample). -/
theorem C6_britimp_amount_is_max :
    ∀ (row : List Cell) (sec : Section) (motivo : Option (List Char))
      (moneda : List Char) (fechaArch : Option (List Char)) (extra agencia : List Char)
      (rec : BcoRec),
      britimpRowRecord sec motivo moneda fechaArch extra agencia row = some rec →
      ∃ f suc rc cands, britimpExtractRow row = some (f, suc, rc, cands) ∧
        rec.importe ∈ cands ∧ ∀ x ∈ cands, x.le rec.importe = true := by
  intro row sec motivo moneda fechaArch extra agencia rec h
  unfold britimpRowRecord at h
  rcases hEx : britimpExtractRow row with _ | ⟨f, suc, rc, cands⟩ <;> rw [hEx] at h
  · simp at h
  · simp only [Option.map_some', Option.some.injEq] at h
    subst h
    exact ⟨f, suc, rc, cands, rfl,
      maxD_mem cands (britimpExtractRow_cands_ne_nil hEx),
      fun x hx => le_maxD cands x hx⟩

def c6SheetV3 : List (List Cell) :=
  [ [.str ("INGRESOS".data), .empty, .empty, .empty, .empty],
    [.str ("01/01/2024".data), .str ("ASU".data), .str ("123456".data),
      .str ("500".data), .str ("200".data)] ]

/-- Counterexample to C6 as stated for `parse_ec_efect_xlsx_generic`
(`consolidado_v3.py`): a data row whose remaining cells parse to
`[500, 200]` is emitted with amount 200 (the last value), not the
maximum 500. -/
theorem C6_counterexample_v3_takes_last :
    (v3GenScan ("BANCO".data) none [] c6SheetV3 none none false).map (·.monto)
        = [⟨200, 0⟩] ∧
    (v3NumsMoneda [Cell.str ("500".data), Cell.str ("200".data)]).1
        = [⟨500, 0⟩, ⟨200, 0⟩] ∧
    ¬ (⟨200, 0⟩ : Dec) = maxD [⟨500, 0⟩, ⟨200, 0⟩] := by
  refine ⟨by decide, by decide, by decide⟩

/-- Witness for C6 at a concrete row with candidates `[100, 50]`. -/
theorem C6_witness :
    ∃ f suc rc cands,
      britimpExtractRow [Cell.str ("01/01/2024".data), Cell.str ("ASU".data),
        Cell.str ("77777".data), Cell.str ("100".data), Cell.str ("50".data)]
        = some (f, suc, rc, cands) ∧
      (⟨100, 0⟩ : Dec) ∈ cands ∧ ∀ x ∈ cands, x.le ⟨100, 0⟩ = true := by
  have h := C6_britimp_amount_is_max
    [Cell.str ("01/01/2024".data), Cell.str ("ASU".data), Cell.str ("77777".data),
      Cell.str ("100".data), Cell.str ("50".data)]
    Section.ingresos none ("PYG".data) none [] []
    { fecha := "01/01/2024".data, sucursal := "ASU".data, recibo := "77777".data,
      bultos := none, importe := ⟨100, 0⟩, moneda := "PYG".data, ingEgr := "IN".data,
      clasif := "BCO".data, fechaArch := none, motivo := "INGRESOS".data, agencia := [] }
    (by decide)
  simpa using h

/-- C7 (amended): for every bundle-statement row with a parseable date, a
branch label and a receipt id, the numeric tail is zero-filled to four
slots `(bgs, mgs, busd, musd)` and the extractor emits a PYG record iff the
guarani pair is non-zero and a USD record iff the dollar pair is non-zero —
hence at most two records, and none when all four slots are zero.  A row
with a PARTIAL numeric tail is zero-padded and still emits (see the
counterexample); only rows with no non-zero slot, or missing
date/branch/receipt, are silently skipped. -/
theorem C7_bultos_pair_emission :
    ∀ (row : List Cell) (sec : Section) (motivo : Option (List Char))
      (fechaArch : Option (List Char)) (agencia : List Char)
      (f suc rc : List Char) (r1 r2 r3 : List Cell),
      scanDate to_ddmmyyyy_v3 row = some (f, r1) →
      scanSuc r1 = some (suc, r2) →
      scanRecibo r2 = some (rc, r3) →
      ((∃ r ∈ bultosRowRecs sec motivo fechaArch agencia row, r.moneda = "PYG".data) ↔
        ((pad4 (r3.filterMap parse_numeric)).getD 0 Dec.zero ≠ Dec.zero ∨
         (pad4 (r3.filterMap parse_numeric)).getD 1 Dec.zero ≠ Dec.zero)) ∧
      ((∃ r ∈ bultosRowRecs sec motivo fechaArch agencia row, r.moneda = "USD".data) ↔
        ((pad4 (r3.filterMap parse_numeric)).getD 2 Dec.zero ≠ Dec.zero ∨
         (pad4 (r3.filterMap parse_numeric)).getD 3 Dec.zero ≠ Dec.zero)) ∧
      (bultosRowRecs sec motivo fechaArch agencia row).length ≤ 2 ∧
      (((pad4 (r3.filterMap parse_numeric)).getD 0 Dec.zero = Dec.zero ∧
        (pad4 (r3.filterMap parse_numeric)).getD 1 Dec.zero = Dec.zero ∧
        (pad4 (r3.filterMap parse_numeric)).getD 2 Dec.zero = Dec.zero ∧
        (pad4 (r3.filterMap parse_numeric)).getD 3 Dec.zero = Dec.zero) →
        bultosRowRecs sec motivo fechaArch agencia row = []) := by
  intro row sec motivo fechaArch agencia f suc rc r1 r2 r3 hd hs hr
  unfold bultosRowRecs
  rw [hd]
  dsimp only
  rw [hs]
  dsimp only
  rw [hr]
  dsimp only
  by_cases hP : (pad4 (r3.filterMap parse_numeric)).getD 0 Dec.zero ≠ Dec.zero ∨
      (pad4 (r3.filterMap parse_numeric)).getD 1 Dec.zero ≠ Dec.zero <;>
    by_cases hQ : (pad4 (r3.filterMap parse_numeric)).getD 2 Dec.zero ≠ Dec.zero ∨
      (pad4 (r3.filterMap parse_numeric)).getD 3 Dec.zero ≠ Dec.zero
  · rw [if_pos hP, if_pos hQ]
    refine ⟨⟨fun _ => hP, fun _ => ⟨_, List.mem_cons_self _ _, rfl⟩⟩,
      ⟨fun _ => hQ, fun _ => ⟨_, List.mem_cons_of_mem _ (List.mem_cons_self _ _), rfl⟩⟩,
      by simp, ?_⟩
    rintro ⟨h0, h1, _, _⟩
    rcases hP with h | h
    · exact absurd h0 h
    · exact absurd h1 h
  · rw [if_pos hP, if_neg hQ]
    refine ⟨⟨fun _ => hP, fun _ => ⟨_, List.mem_cons_self _ _, rfl⟩⟩,
      ⟨?_, fun hq => absurd hq hQ⟩, by simp, ?_⟩
    · rintro ⟨r, hr, hrm⟩
      rw [List.append_nil] at hr
      rcases List.mem_singleton.mp hr with rfl
      simp [mkBultosRec] at hrm
    · rintro ⟨h0, h1, _, _⟩
      rcases hP with h | h
      · exact absurd h0 h
      · exact absurd h1 h
  · rw [if_neg hP, if_pos hQ]
    refine ⟨⟨?_, fun hp => absurd hp hP⟩,
      ⟨fun _ => hQ, fun _ => ⟨_, List.mem_cons_self _ _, rfl⟩⟩, by simp, ?_⟩
    · rintro ⟨r, hr, hrm⟩
      rw [List.nil_append] at hr
      rcases List.mem_singleton.mp hr with rfl
      simp [mkBultosRec] at hrm
    · rintro ⟨_, _, h2, h3⟩
      rcases hQ with h | h
      · exact absurd h2 h
      · exact absurd h3 h
  · rw [if_neg hP, if_neg hQ]
    refine ⟨⟨?_, fun hp => absurd hp hP⟩, ⟨?_, fun hq => absurd hq hQ⟩, by simp,
      fun _ => rfl⟩
    · rintro ⟨r, hr, _⟩
      simp at hr
    · rintro ⟨r, hr, _⟩
      simp at hr

/-- Counterexample to C7 as stated: a row whose tail holds a single number
`7` (missing the 4-number tail) is NOT silently skipped — it emits one PYG
record with bundle count 7 and amount 0. -/
theorem C7_counterexample_partial_tail :
    bultosRowRecs Section.ingresos none none []
      [Cell.str ("01/01/2024".data), Cell.str ("ASU".data),
       Cell.str ("123456".data), Cell.str ("7".data)] ≠ [] ∧
    (bultosRowRecs Section.ingresos none none []
      [Cell.str ("01/01/2024".data), Cell.str ("ASU".data),
       Cell.str ("123456".data), Cell.str ("7".data)]).map
        (fun r => (r.moneda, r.bultos, r.monto))
      = [("PYG".data, some 7, Dec.zero)] :=
  ⟨by decide, by decide⟩

/-- Witness for C7 at a concrete row with numeric tail `[2, 1000]`. -/
theorem C7_witness :
    (∃ r ∈ bultosRowRecs Section.ingresos none none []
        [Cell.str ("01/01/2024".data), Cell.str ("ASU".data),
         Cell.str ("123456".data), Cell.str ("2".data), Cell.str ("1000".data)],
      r.moneda = "PYG".data) ∧
    ¬ (∃ r ∈ bultosRowRecs Section.ingresos none none []
        [Cell.str ("01/01/2024".data), Cell.str ("ASU".data),
         Cell.str ("123456".data), Cell.str ("2".data), Cell.str ("1000".data)],
      r.moneda = "USD".data) := by
  have h := C7_bultos_pair_emission
    [Cell.str ("01/01/2024".data), Cell.str ("ASU".data),
     Cell.str ("123456".data), Cell.str ("2".data), Cell.str ("1000".data)]
    Section.ingresos none none []
    ("01/01/2024".data) ("ASU".data) ("123456".data)
    [Cell.str ("ASU".data), Cell.str ("123456".data), Cell.str ("2".data),
     Cell.str ("1000".data)]
    [Cell.str ("123456".data), Cell.str ("2".data), Cell.str ("1000".data)]
    [Cell.str ("2".data), Cell.str ("1000".data)]
    (by decide) (by decide) (by decide)
  exact ⟨h.1.mpr (by decide), fun hc => absurd (h.2.1.mp hc) (by decide)⟩

/-- C3: the authenticity gate of `britimp_consolidado_v4.py` (the gate that
is asymmetric by document type), composed with its dispatcher: for a
document that mentions neither the target institution (`ITAU`) nor any
competing institution, an inventory-named file (matching the inventory
token groups, with no statement token) is accepted, while a statement-named
file (matching any of the three statement shapes) is rejected. -/
theorem C3_gate_asymmetry :
    ∀ txt fnameU upText : List Char,
      (NEGATIVE_BANKS.any fun b => hasSub b txt || hasSub b fnameU) = false →
      hasSub ("ITAU".data) txt = false →
      hasSub ("ITAU".data) fnameU = false →
      ((name_matches fnameU invGateGroups = true →
        hasSub ("EC".data) fnameU = false →
        detect_cliente_itau_brit txt fnameU (dispatch_tipo_brit fnameU upText) = true) ∧
       ((name_matches fnameU [["EC".data], ["BULTO".data], ["ATM".data]] ||
         name_matches fnameU [["EC".data], ["EFECT".data], ["ATM".data]] ||
         name_matches fnameU [["EC".data], ["EFECT".data], ["BCO".data, "BANCO".data]]) = true →
        detect_cliente_itau_brit txt fnameU (dispatch_tipo_brit fnameU upText) = false)) := by
  intro txt fnameU upText hneg hitT hitF
  have gateEC : ∀ t : List Char, hasSub ("EC_".data) t = true →
      hasSub ("INV_".data) t = false →
      detect_cliente_itau_brit txt fnameU (some t) = false := by
    intro t hec hinv'
    unfold detect_cliente_itau_brit
    by_cases hm : name_matches fnameU ecGateGroups = true <;>
      simp [hm, hec, hinv', hitT, hitF, hneg]
  constructor
  · intro hinv hecF
    have hEC1 : name_matches fnameU [["EC".data], ["BULTO".data], ["ATM".data]] = false := by
      simp [name_matches, hecF]
    have hEC2 : name_matches fnameU [["EC".data], ["EFECT".data], ["ATM".data]] = false := by
      simp [name_matches, hecF]
    have hEC3 : name_matches fnameU
        [["EC".data], ["EFECT".data], ["BCO".data, "BANCO".data]] = false := by
      simp [name_matches, hecF]
    have hinv' := hinv
    simp only [name_matches, invGateGroups, List.all_cons, List.all_nil, List.any_cons,
      List.any_nil, Bool.or_false, Bool.and_true, Bool.and_eq_true,
      Bool.or_eq_true] at hinv'
    obtain ⟨hINV, hBIL, hCh⟩ := hinv'
    have gateINV : ∀ t : List Char, hasSub ("EC_".data) t = false →
        hasSub ("INV_".data) t = true →
        detect_cliente_itau_brit txt fnameU (some t) = true := by
      intro t hec hinvt
      unfold detect_cliente_itau_brit
      simp [hec, hinvt, hitT, hitF, hneg, hinv]
    by_cases hatm : hasSub ("ATM".data) fnameU = true
    · have h4 : name_matches fnameU [["INV".data], ["BILLETE".data], ["ATM".data]] = true := by
        simp [name_matches, hINV, hBIL, hatm]
      unfold dispatch_tipo_brit
      rw [hEC1, hEC2, hEC3, h4]
      simp only [Bool.false_eq_true, if_false, if_true]
      exact gateINV _ (by decide) (by decide)
    · have h4 : name_matches fnameU [["INV".data], ["BILLETE".data], ["ATM".data]] = false := by
        simp only [Bool.not_eq_true] at hatm
        simp [name_matches, hatm]
      have hbb : (hasSub ("BCO".data) fnameU || hasSub ("BANCO".data) fnameU) = true := by
        rcases hCh with h | h | h
        · exact absurd h (by simp only [Bool.not_eq_true] at hatm; simp [hatm])
        · simp [h]
        · simp [h]
      have h5 : name_matches fnameU
          [["INV".data], ["BILLETE".data], ["BCO".data, "BANCO".data]] = true := by
        rcases Bool.or_eq_true_iff.mp hbb with h | h <;> simp [name_matches, hINV, hBIL, h]
      unfold dispatch_tipo_brit
      rw [hEC1, hEC2, hEC3, h4, h5]
      simp only [Bool.false_eq_true, if_false, if_true]
      exact gateINV _ (by decide) (by decide)
  · intro hshape
    unfold dispatch_tipo_brit
    by_cases h1 : name_matches fnameU [["EC".data], ["BULTO".data], ["ATM".data]] = true
    · rw [h1]
      simp only [if_true]
      exact gateEC _ (by decide) (by decide)
    · rw [Bool.not_eq_true] at h1
      rw [h1]
      by_cases h2 : name_matches fnameU [["EC".data], ["EFECT".data], ["ATM".data]] = true
      · rw [h2]
        simp only [Bool.false_eq_true, if_false, if_true]
        exact gateEC _ (by decide) (by decide)
      · rw [Bool.not_eq_true] at h2
        rw [h2]
        have h3 : name_matches fnameU
            [["EC".data], ["EFECT".data], ["BCO".data, "BANCO".data]] = true := by
          rcases Bool.or_eq_true_iff.mp hshape with h | h
          · rcases Bool.or_eq_true_iff.mp h with h' | h'
            · exact absurd h' (by simp [h1])
            · exact absurd h' (by simp [h2])
          · exact h
        rw [h3]
        simp only [Bool.false_eq_true, if_false, if_true]
        exact gateEC _ (by decide) (by decide)

/-- Witness for C3: a concrete inventory filename is accepted and a
concrete statement filename is rejected, both with an empty preview. -/
theorem C3_witness :
    detect_cliente_itau_brit [] ("INV_BILLETES_ATM_ASU.PDF".data)
      (dispatch_tipo_brit ("INV_BILLETES_ATM_ASU.PDF".data) []) = true ∧
    detect_cliente_itau_brit [] ("EC_EFECT_ATM 01_0.XLSX".data)
      (dispatch_tipo_brit ("EC_EFECT_ATM 01_0.XLSX".data) []) = false := by
  constructor
  · exact (C3_gate_asymmetry [] _ [] (by decide) (by decide) (by decide)).1
      (by decide) (by decide)
  · exact (C3_gate_asymmetry [] _ [] (by decide) (by decide) (by decide)).2 (by decide)

/-- C5 (amended): a competing-institution name in the preview text forces
rejection in all three gates, and the britimp v4 gate also rejects on a
competing name in the filename; `consolidado_v4.py`'s `detect_itau`,
however, never checks the filename for competing names (see the
counterexample). -/
theorem C5_competing_name_rejection :
    ∀ txt fnameU : List Char,
      ((NEGATIVE_BANKS.any fun b => hasSub b txt) = true →
        detect_cliente_itau_v3 txt fnameU = false) ∧
      ((NEGATIVE_BANKS.any fun b => hasSub b txt) = true →
        detect_itau_v4 txt fnameU = false) ∧
      (∀ tipo, (NEGATIVE_BANKS.any fun b => hasSub b txt || hasSub b fnameU) = true →
        detect_cliente_itau_brit txt fnameU tipo = false) := by
  intro txt fnameU
  refine ⟨fun h => ?_, fun h => ?_, fun tipo h => ?_⟩
  · simp [detect_cliente_itau_v3, h]
  · simp [detect_itau_v4, h]
  · simp [detect_cliente_itau_brit, h]

/-- Counterexample to C5 as stated: a filename that matches the three-group
shape and contains the competing institution `CONTINENTAL`, with an empty
preview, is ACCEPTED by `consolidado_v4.py`'s `detect_itau`. -/
theorem C5_counterexample_v4_filename_unchecked :
    detect_itau_v4 [] ("EC_EFECT_ATM_BILLETES_CONTINENTAL.XLS".data) = true ∧
    name_matches ("EC_EFECT_ATM_BILLETES_CONTINENTAL.XLS".data) pipelineGroups = true ∧
    (NEGATIVE_BANKS.any fun b =>
      hasSub b ("EC_EFECT_ATM_BILLETES_CONTINENTAL.XLS".data)) = true :=
  ⟨by decide, by decide, by decide⟩

/-- Witness for C5 at concrete texts containing competing-institution
names. -/
theorem C5_witness :
    detect_cliente_itau_v3 ("BBVA".data) [] = false ∧
    detect_itau_v4 ("BBVA".data) [] = false ∧
    detect_cliente_itau_brit [] ("INFORME CONTINENTAL.XLS".data) none = false := by
  have h := C5_competing_name_rejection ("BBVA".data) []
  have h2 := C5_competing_name_rejection [] ("INFORME CONTINENTAL.XLS".data)
  exact ⟨h.1 (by decide), h.2.1 (by decide), h2.2.2 none (by decide)⟩

/-- C8 (code bug): `file_text_preview` is NOT total on spreadsheet sources:
when the default-engine `pd.ExcelFile` attempt raises and the fallback
attempt (which is outside any `try`) raises as well — e.g. on a corrupt
`.xlsx` — the exception propagates instead of yielding `""`.  The empty
string is also not what it returns there: the outcome is an exception. -/
theorem C8_preview_can_raise :
    file_text_preview_v3 FileExt.xlsx PyResult.exn PyResult.exn (PyResult.ok []) true
      (PyResult.ok []) (PyResult.ok []) = PyResult.exn ∧
    (PyResult.exn : PyResult (List Char)) ≠ PyResult.ok [] :=
  ⟨rfl, by decide⟩

def c4Sheet : List (List Cell) :=
  [ [.str ("INGRESOS".data), .empty, .empty, .empty],
    [.str ("01/01/2024".data), .str ("ASU".data), .str ("123456".data),
      .str ("1.000.000".data)],
    [.str ("MOTIVO X".data), .empty, .empty, .empty],
    [.str ("02/01/2024".data), .str ("ASU".data), .str ("654321".data),
      .str ("2.000.000".data)],
    [.str ("TOTAL".data), .empty, .empty, .empty] ]

/-- Counterexample to C4 as stated: on the literal five-row sheet, the v3
generic statement extractor emits two records but the second carries the
reason label `"INGRESOS"`, not `"MOTIVO X"` — `parse_ec_efect_xlsx_generic`
has no single-cell sticky-reason rule, so the `"MOTIVO X"` row is skipped
as a dateless row. -/
theorem C4_counterexample_reason_not_sticky :
    (v3GenScan ("ATM".data) none [] c4Sheet none none false).length = 2 ∧
    ((v3GenScan ("ATM".data) none [] c4Sheet none none false).map (·.motivo)).getLast?
      = some ("INGRESOS".data) ∧
    some ("INGRESOS".data) ≠ some ("MOTIVO X".data) :=
  ⟨by decide, by decide, by decide⟩

/-- C4 (amended): on the literal five-row sheet both cited generic
extractors (v3 `parse_ec_efect_xlsx_generic` and v4 `parse_ec_xlsx_generic`)
emit exactly two records, each carrying the section label `"INGRESOS"` as
reason and amount 0 (the dot-grouped amounts are unparseable, cf. C9); the
sticky-reason rule exists only in the bundle extractor, which emits NO
records on this sheet because every row lacks a parseable amount. -/
theorem C4_two_records_section_reason :
    (v3GenScan ("ATM".data) none [] c4Sheet none none false).map
        (fun r => (r.fecha, r.motivo, r.monto))
      = [("01/01/2024".data, "INGRESOS".data, Dec.zero),
         ("02/01/2024".data, "INGRESOS".data, Dec.zero)] ∧
    (v4GenScan ("ATM".data) [] none c4Sheet none false).map
        (fun r => (r.fecha, r.motivo, r.monto))
      = [("01/01/2024".data, "INGRESOS".data, (0 : ℤ)),
         ("02/01/2024".data, "INGRESOS".data, (0 : ℤ))] ∧
    bultosScan none [] c4Sheet none none false = [] :=
  ⟨by decide, by decide, by decide⟩

def c2Stale : WState :=
  { runWritten := [],
    files := fun t => if t = "EC_EFECT_ATM".data then [Entry.data 99] else [] }

/-- C2 (code bug in `britimp_consolidado_v4.py`): starting a run with a
pre-existing same-day output file holding a stale row, two writes through
the v3 writer leave exactly one header followed by the new rows (as the
claim states), but the britimp v4 writer — which never unlinks and always
opens in append mode, despite its own log line announcing
"Creando/sobrescribiendo" — leaves the stale row before the header. -/
theorem C2_writer_truncation_divergence :
    ((write_consolidated_v3 ("EC_EFECT_ATM".data) [3]
        (write_consolidated_v3 ("EC_EFECT_ATM".data) [1, 2] c2Stale)).files
          ("EC_EFECT_ATM".data)
      = [Entry.header, Entry.data 1, Entry.data 2, Entry.data 3]) ∧
    ((write_consolidated_brit ("EC_EFECT_ATM".data) [3]
        (write_consolidated_brit ("EC_EFECT_ATM".data) [1, 2] c2Stale)).files
          ("EC_EFECT_ATM".data)
      = [Entry.data 99, Entry.header, Entry.data 1, Entry.data 2, Entry.data 3]) ∧
    [Entry.data 99, Entry.header, Entry.data 1, Entry.data 2, Entry.data 3] ≠
      [Entry.header, Entry.data 1, Entry.data 2, Entry.data 3] :=
  ⟨by decide, by decide, by decide⟩

/-- C10: calling the consolidated writer with an empty record set is a
complete no-op on the writer state (for the v3 and v4 writers), and a later
non-empty write for a type not yet marked in `RUN_WRITTEN` still performs
the first-write truncate-and-header behaviour, producing a file that is
exactly one header followed by the new rows regardless of the file's prior
content. -/
theorem C10_empty_write_noop :
    ∀ (st : WState) (tipo : List Char) (df : List ℕ),
      write_consolidated_v3 tipo [] st = st ∧
      write_consolidated_v4 tipo [] st = st ∧
      (tipo ∈ OUTPUT_tipos → tipo ∉ st.runWritten → df ≠ [] →
        (write_consolidated_v3 tipo df (write_consolidated_v3 tipo [] st)).files tipo
          = Entry.header :: df.map Entry.data ∧
        (write_consolidated_v4 tipo df (write_consolidated_v4 tipo [] st)).files tipo
          = Entry.header :: df.map Entry.data) := by
  intro st tipo df
  have h3 : write_consolidated_v3 tipo [] st = st := by
    unfold write_consolidated_v3
    rw [if_pos (Or.inr rfl)]
  have h4 : write_consolidated_v4 tipo [] st = st := by
    unfold write_consolidated_v4
    rw [if_pos (Or.inl rfl)]
  refine ⟨h3, h4, fun hin hnotin hdf => ⟨?_, ?_⟩⟩
  · rw [h3]
    unfold write_consolidated_v3
    rw [if_neg (by rintro (h | h); exacts [h hin, hdf h]), if_pos hnotin]
    simp
  · rw [h4]
    unfold write_consolidated_v4
    rw [if_neg (by rintro (h | h); exacts [hdf h, h hin]), if_pos hnotin]
    simp

/-- Witness for C10 at a concrete state with a pre-existing stale file. -/
theorem C10_witness :
    (write_consolidated_v3 ("EC_BULTO_ATM".data) [7]
        (write_consolidated_v3 ("EC_BULTO_ATM".data) [] c2Stale)).files
          ("EC_BULTO_ATM".data)
      = [Entry.header, Entry.data 7] ∧
    (write_consolidated_v4 ("EC_BULTO_ATM".data) [7]
        (write_consolidated_v4 ("EC_BULTO_ATM".data) [] c2Stale)).files
          ("EC_BULTO_ATM".data)
      = [Entry.header, Entry.data 7] := by
  have h := (C10_empty_write_noop c2Stale ("EC_BULTO_ATM".data) [7]).2.2
    (by decide) (by decide) (by decide)
  simpa using h

/-- C1: the numeric normalizer maps `"1.234,56"` to 1234.56, `"(100)"` to
-100, `"1,5"` to 1.5 and `"1,500"` to 1500 (a `Dec` value `⟨m, e⟩` denotes
the decimal `m / 10 ^ e`); and in general a string of digits with a single
comma is read with the comma as decimal separator exactly when at most two
digits follow it, and as a thousands separator otherwise. -/
theorem C1_numeric_normalization :
    parse_numeric (Cell.str ("1.234,56".data)) = some ⟨123456, 2⟩ ∧
    parse_numeric (Cell.str ("(100)".data)) = some ⟨-100, 0⟩ ∧
    parse_numeric (Cell.str ("1,5".data)) = some ⟨15, 1⟩ ∧
    parse_numeric (Cell.str ("1,500".data)) = some ⟨1500, 0⟩ ∧
    ∀ a b : List Char, (∀ x ∈ a, x.isDigit = true) → (∀ x ∈ b, x.isDigit = true) →
      (a ≠ [] ∨ b ≠ []) →
      parse_numeric (Cell.str (a ++ ',' :: b)) =
        some (if b.length ≤ 2
              then Dec.make (digitsVal a * 10 ^ b.length + digitsVal b) b.length
              else ⟨(digitsVal (a ++ b) : ℤ), 0⟩) := by
  refine ⟨by decide, by decide, by decide, by decide, ?_⟩
  intro a b ha hb hne
  exact parse_lone_comma a b ha hb hne

/-- Witness for C1: the lone-comma rule instantiated at `"12,34"` (decimal
reading 12.34) and `"12,345"` (thousands reading 12345). -/
theorem C1_witness :
    parse_numeric (Cell.str ("12,34".data)) = some ⟨1234, 2⟩ ∧
    parse_numeric (Cell.str ("12,345".data)) = some ⟨12345, 0⟩ := by
  have h1 := C1_numeric_normalization.2.2.2.2 ("12".data) ("34".data)
    (by decide) (by decide) (Or.inl (by decide))
  have h2 := C1_numeric_normalization.2.2.2.2 ("12".data) ("345".data)
    (by decide) (by decide) (Or.inl (by decide))
  constructor
  · rw [show ("12,34".data : List Char) = "12".data ++ ',' :: "34".data from by decide, h1]
    decide
  · rw [show ("12,345".data : List Char) = "12".data ++ ',' :: "345".data from by decide, h2]
    decide

/-- C9: `parse_numeric` returns `None` for every string whose digits are
grouped by two or more dots with no comma present, so dot-grouped integer
amounts are unparseable at the parser interface. -/
theorem C9_dot_grouped_unparsed :
    ∀ a b c : List Char, (∀ x ∈ a, x.isDigit = true) → (∀ x ∈ b, x.isDigit = true) →
      (∀ x ∈ c, x.isDigit = true ∨ x = '.') →
      parse_numeric (Cell.str (a ++ '.' :: (b ++ '.' :: c))) = none :=
  fun a b c ha hb hc => parse_dotted_groups a b c ha hb hc

/-- Witness for C9 at the concrete input `"1.000.000"`. -/
theorem C9_witness :
    parse_numeric (Cell.str ("1.000.000".data)) = none := by
  have h := C9_dot_grouped_unparsed ("1".data) ("000".data) ("000".data)
    (by decide) (by decide) (by decide)
  rw [show ("1.000.000".data : List Char)
      = "1".data ++ '.' :: ("000".data ++ '.' :: "000".data) from by decide]
  exact h
